import Mathlib

/-!
# TrialByFire — verification of the settlement ledger and trial pipeline

Shallow embedding of the TrialByFire repository:

* `TrialMarket` — the Solidity settlement-ledger contract `TrialMarket.sol`
  (the complete contract in the sources: market lifecycle, stake accounting,
  payout arithmetic, claim idempotency).  Machine integers (`uint256`) are
  modelled as `Nat`; a reverting `require` is an `Except.error` carrying the
  contract's revert string (a revert rolls back all state, so the error branch
  returns no state and no transfer); the ETH transfer at the end of a claim is
  the `Nat` paired with the successor state (the low-level `call` is assumed to
  succeed, as in the repository's tests).
* `Engine` — the TypeScript trial pipeline (`packages/engine`): the pure
  confidence evaluator, the evidence aggregator, and the advocate runner with
  its Zod schema validation.  TS numbers that hold scores are modelled as
  `Int`; `JSON.parse` is abstracted by letting an LLM response carry
  `Option Json` content (`none` = content that fails to parse as JSON).
-/

namespace TrialByFire

/-- Pointwise update of a total map (a Solidity `mapping`, which defaults every
absent key to the zero value of its codomain). -/
def upd {α : Type} (f : Nat → α) (k : Nat) (v : α) : Nat → α :=
  fun n => if n = k then v else f n

namespace TrialMarket

/-- `enum MarketStatus { Open, SettlementRequested, Resolved, Escalated }` -/
inductive MarketStatus
  | Open
  | SettlementRequested
  | Resolved
  | Escalated
  deriving DecidableEq, Repr

/-- `enum Verdict { None, Yes, No }` -/
inductive Verdict
  | None
  | Yes
  | No
  deriving DecidableEq, Repr

/-- `struct Market` — `bytes32` transcript hashes are modelled as `Nat`. -/
structure Market where
  question : String
  rubricHash : String
  deadline : Nat
  status : MarketStatus
  outcome : Verdict
  yesPool : Nat
  noPool : Nat
  transcriptHash : Nat
  deriving DecidableEq, Repr

/-- The zero value a Solidity `mapping(uint256 => Market)` yields for an
unwritten key: empty strings, zero numbers, first enum members. -/
def defaultMarket : Market :=
  { question := ""
    rubricHash := ""
    deadline := 0
    status := MarketStatus.Open
    outcome := Verdict.None
    yesPool := 0
    noPool := 0
    transcriptHash := 0 }

/-- Contract storage.  Addresses are modelled as `Nat`.  `owner` is the
`Ownable` owner set at deployment. -/
structure State where
  owner : Nat
  nextMarketId : Nat
  markets : Nat → Market
  yesPositions : Nat → Nat → Nat
  noPositions : Nat → Nat → Nat

/-- `createMarket(question, rubricHash, deadline)`; `now` is
`block.timestamp`.  Returns the new state and the fresh market id. -/
def createMarket (s : State) (question rubricHash : String)
    (deadline now : Nat) : Except String (State × Nat) :=
  if deadline > now then
    let marketId := s.nextMarketId
    Except.ok
      ({ s with
          nextMarketId := marketId + 1
          markets := upd s.markets marketId
            { question := question
              rubricHash := rubricHash
              deadline := deadline
              status := MarketStatus.Open
              outcome := Verdict.None
              yesPool := 0
              noPool := 0
              transcriptHash := 0 } },
        marketId)
  else
    Except.error "Deadline must be in the future"

/-- `takePosition(marketId, side)`; `sender`/`value`/`now` are
`msg.sender`/`msg.value`/`block.timestamp`. -/
def takePosition (s : State) (marketId : Nat) (side : Verdict)
    (sender value now : Nat) : Except String State :=
  let m := s.markets marketId
  if m.status = MarketStatus.Open then
    if now < m.deadline then
      if side = Verdict.Yes ∨ side = Verdict.No then
        if value > 0 then
          if side = Verdict.Yes then
            Except.ok
              { s with
                  yesPositions := upd s.yesPositions marketId
                    (upd (s.yesPositions marketId) sender
                      (s.yesPositions marketId sender + value))
                  markets := upd s.markets marketId
                    { m with yesPool := m.yesPool + value } }
          else
            Except.ok
              { s with
                  noPositions := upd s.noPositions marketId
                    (upd (s.noPositions marketId) sender
                      (s.noPositions marketId sender + value))
                  markets := upd s.markets marketId
                    { m with noPool := m.noPool + value } }
        else Except.error "Must send ETH"
      else Except.error "Invalid side"
    else Except.error "Past deadline"
  else Except.error "Market not open"

/-- `requestSettlement(marketId)` — permissionless. -/
def requestSettlement (s : State) (marketId now : Nat) :
    Except String State :=
  let m := s.markets marketId
  if m.status = MarketStatus.Open then
    if now ≥ m.deadline then
      Except.ok
        { s with
            markets := upd s.markets marketId
              { m with status := MarketStatus.SettlementRequested } }
    else Except.error "Deadline not reached"
  else Except.error "Market not open"

/-- `settle(marketId, outcome, scoreYes, scoreNo, transcriptHash)` — gated by
`onlyOwner` (the modifier runs before the body). -/
def settle (s : State) (marketId : Nat) (outcome : Verdict)
    (_scoreYes _scoreNo transcriptHash sender : Nat) :
    Except String State :=
  if sender = s.owner then
    let m := s.markets marketId
    if m.status = MarketStatus.SettlementRequested then
      if outcome = Verdict.Yes ∨ outcome = Verdict.No then
        Except.ok
          { s with
              markets := upd s.markets marketId
                { m with
                    status := MarketStatus.Resolved
                    outcome := outcome
                    transcriptHash := transcriptHash } }
      else Except.error "Invalid verdict"
    else Except.error "Settlement not requested"
  else Except.error "Ownable: caller is not the owner"

/-- `escalate(marketId, transcriptHash)` — gated by `onlyOwner`. -/
def escalate (s : State) (marketId transcriptHash sender : Nat) :
    Except String State :=
  if sender = s.owner then
    let m := s.markets marketId
    if m.status = MarketStatus.SettlementRequested then
      Except.ok
        { s with
            markets := upd s.markets marketId
              { m with
                  status := MarketStatus.Escalated
                  transcriptHash := transcriptHash } }
    else Except.error "Settlement not requested"
  else Except.error "Ownable: caller is not the owner"

/-- `claimWinnings(marketId)`.  The source zeroes the caller's winning-side
position, then requires `userPosition > 0` and `totalWinnerPool > 0`, then
transfers `userPosition * totalPool / totalWinnerPool` (uint division).  A
failed `require` reverts the whole call, which the `Except.error` branch
models (no state survives, no funds move).  On success the returned state has
the position already zeroed and the second component is the transfer. -/
def claimWinnings (s : State) (marketId sender : Nat) :
    Except String (State × Nat) :=
  let m := s.markets marketId
  if m.status = MarketStatus.Resolved then
    let totalPool := m.yesPool + m.noPool
    if m.outcome = Verdict.Yes then
      let userPosition := s.yesPositions marketId sender
      let totalWinnerPool := m.yesPool
      let s' : State :=
        { s with
            yesPositions := upd s.yesPositions marketId
              (upd (s.yesPositions marketId) sender 0) }
      if userPosition > 0 then
        if totalWinnerPool > 0 then
          Except.ok (s', userPosition * totalPool / totalWinnerPool)
        else Except.error "No winner pool"
      else Except.error "No winning position"
    else
      let userPosition := s.noPositions marketId sender
      let totalWinnerPool := m.noPool
      let s' : State :=
        { s with
            noPositions := upd s.noPositions marketId
              (upd (s.noPositions marketId) sender 0) }
      if userPosition > 0 then
        if totalWinnerPool > 0 then
          Except.ok (s', userPosition * totalPool / totalWinnerPool)
        else Except.error "No winner pool"
      else Except.error "No winning position"
  else Except.error "Market not resolved"

/-- Modelled from the spec: `claimRefund(uint256)` is declared by the
repository's frontend ABI and exercised by its contract tests, but the
contract body implementing it is not among the source files (the complete
`TrialMarket` contract in the sources stops at `claimWinnings`).  Following
the spec's operation table — status = Escalated, caller has a non-zero
position on either side, pays back exactly the staked amount, zeros the
position first, rejects if nothing to refund or already claimed — with the
revert strings the repository's tests expect (`"Market not escalated"`,
`"No position to refund"`). -/
def claimRefund (s : State) (marketId sender : Nat) :
    Except String (State × Nat) :=
  let m := s.markets marketId
  if m.status = MarketStatus.Escalated then
    let refund := s.yesPositions marketId sender + s.noPositions marketId sender
    let s' : State :=
      { s with
          yesPositions := upd s.yesPositions marketId
            (upd (s.yesPositions marketId) sender 0)
          noPositions := upd s.noPositions marketId
            (upd (s.noPositions marketId) sender 0) }
    if refund > 0 then
      Except.ok (s', refund)
    else Except.error "No position to refund"
  else Except.error "Market not escalated"

/-- The pool of the side the claim branch of `claimWinnings` treats as the
winner (the code tests `outcome == Verdict.Yes` and treats every other
outcome as a NO win). -/
def winnerPool (m : Market) : Nat :=
  if m.outcome = Verdict.Yes then m.yesPool else m.noPool

/-- The caller's position on the winning side, matching the same branch. -/
def winnerPos (s : State) (marketId a : Nat) : Nat :=
  if (s.markets marketId).outcome = Verdict.Yes then
    s.yesPositions marketId a
  else
    s.noPositions marketId a

/-- The spec's lifecycle edges, `Open → SettlementRequested → {Resolved,
Escalated}`, as a step relation: a status either stays put or moves along
one of the two edges. -/
def StatusStep (a b : MarketStatus) : Prop :=
  a = b ∨
    (a = MarketStatus.Open ∧ b = MarketStatus.SettlementRequested) ∨
    (a = MarketStatus.SettlementRequested ∧
      (b = MarketStatus.Resolved ∨ b = MarketStatus.Escalated))

/-- Harness for the conservation claim: a sequence of `claimWinnings` calls
by `callers`, in order, accumulating the total amount transferred.  A
rejected call is a revert: the state is unchanged and nothing is paid. -/
def runClaims (s : State) (marketId : Nat) : List Nat → State × Nat
  | [] => (s, 0)
  | a :: rest =>
    match claimWinnings s marketId a with
    | Except.ok (s', pay) =>
      let r := runClaims s' marketId rest
      (r.1, pay + r.2)
    | Except.error _ => runClaims s marketId rest

end TrialMarket

namespace Engine

/-- `type Verdict = "YES" | "NO"` (the engine's verdict, distinct from the
contract's three-valued enum). -/
inductive Verdict
  | YES
  | NO
  deriving DecidableEq, Repr

def Verdict.toStr : Verdict → String
  | Verdict.YES => "YES"
  | Verdict.NO => "NO"

structure RubricCriterion where
  name : String
  description : String
  weight : Int
  deriving DecidableEq, Repr

structure ResolutionRubric where
  criteria : List RubricCriterion
  evidenceSources : List String
  confidenceThreshold : Int
  deriving DecidableEq, Repr

/-- `MarketQuestion` — the optional `metadata` record is elided (no claim
touches it); `Date` is modelled as `Nat`. -/
structure MarketQuestion where
  id : String
  question : String
  rubric : ResolutionRubric
  settlementDeadline : Nat
  deriving DecidableEq, Repr

structure EvidenceItem where
  source : String
  title : String
  content : String
  url : Option String
  retrievedAt : Nat
  deriving DecidableEq, Repr

structure EvidenceBundle where
  questionId : String
  items : List EvidenceItem
  gatheredAt : Nat
  deriving DecidableEq, Repr

structure CriterionArgument where
  criterion : String
  claim : String
  evidenceCitations : List String
  strength : Int
  deriving DecidableEq, Repr

structure AdvocateArgument where
  side : Verdict
  confidence : Int
  arguments : List CriterionArgument
  weaknessesInOpposingCase : List String
  model : String
  deriving DecidableEq, Repr

structure CriterionScore where
  criterion : String
  scoreYes : Int
  scoreNo : Int
  reasoning : String
  deriving DecidableEq, Repr

structure JudgeRuling where
  finalVerdict : Verdict
  scoreYes : Int
  scoreNo : Int
  criterionScores : List CriterionScore
  rulingText : String
  hallucinationsDetected : List String
  model : String
  deriving DecidableEq, Repr

inductive SettlementAction
  | RESOLVE
  | ESCALATE
  deriving DecidableEq, Repr

structure SettlementDecision where
  action : SettlementAction
  verdict : Option Verdict
  margin : Int
  reason : String
  deriving DecidableEq, Repr

/-- `evaluateConfidence(ruling, rubric)` from `pipeline/confidence.ts`:
pure decision logic, checked in priority order (hallucinations, then margin
below threshold, then resolve).  The template-literal reason strings are
rebuilt with `++`. -/
def evaluateConfidence (ruling : JudgeRuling) (rubric : ResolutionRubric) :
    SettlementDecision :=
  let margin : Int := |ruling.scoreYes - ruling.scoreNo|
  if ruling.hallucinationsDetected.length > 0 then
    { action := SettlementAction.ESCALATE
      verdict := none
      margin := margin
      reason := "Hallucinations detected: " ++
        String.intercalate "; " ruling.hallucinationsDetected ++
        ". Escalating for human review." }
  else if margin < rubric.confidenceThreshold then
    { action := SettlementAction.ESCALATE
      verdict := none
      margin := margin
      reason := "Margin " ++ toString margin ++ " is below threshold " ++
        toString rubric.confidenceThreshold ++ ". Too close to auto-resolve." }
  else
    { action := SettlementAction.RESOLVE
      verdict := some ruling.finalVerdict
      margin := margin
      reason := "Margin " ++ toString margin ++ " exceeds threshold " ++
        toString rubric.confidenceThreshold ++ ". Resolving as " ++
        ruling.finalVerdict.toStr ++ "." }

/-- `EvidenceSource` — `fetch` returns a settled outcome: `ok items` for a
fulfilled promise, `error reason` for a rejected one. -/
structure EvidenceSource where
  name : String
  fetch : MarketQuestion → Except String (List EvidenceItem)

/-- `gatherEvidence(question, sources)` from `evidence/index.ts`:
`Promise.allSettled` over all fetches (the `map`), then the `forEach` that
pushes fulfilled items and skips (logs) rejected ones (the `foldl`).
`new Date()` is the `now` argument. -/
def gatherEvidence (question : MarketQuestion)
    (sources : List EvidenceSource) (now : Nat) : EvidenceBundle :=
  let results := sources.map (fun source => source.fetch question)
  let items := results.foldl
    (fun acc r =>
      match r with
      | Except.ok value => acc ++ value
      | Except.error _ => acc)
    ([] : List EvidenceItem)
  { questionId := question.id
    items := items
    gatheredAt := now }

/-- A JSON value, the target of `JSON.parse` on an LLM response.  Numbers are
modelled as `Int` (every score the schemas range-check is integral in the
repository's fixtures and tests). -/
inductive Json where
  | null
  | bool (b : Bool)
  | num (n : Int)
  | str (s : String)
  | arr (elems : List Json)
  | obj (fields : List (String × Json))
  deriving Repr

def Json.getField : Json → String → Option Json
  | Json.obj fields, key => fields.lookup key
  | _, _ => none

def Json.asStr : Json → Except String String
  | Json.str s => Except.ok s
  | _ => Except.error "Expected string"

def Json.asNum : Json → Except String Int
  | Json.num n => Except.ok n
  | _ => Except.error "Expected number"

def Json.asArr : Json → Except String (List Json)
  | Json.arr elems => Except.ok elems
  | _ => Except.error "Expected array"

def getRequired (j : Json) (key : String) : Except String Json :=
  match j.getField key with
  | some v => Except.ok v
  | none => Except.error ("Required field missing: " ++ key)

/-- `z.enum(["YES", "NO"])` for the `side` field. -/
def parseSide (j : Json) : Except String Verdict := do
  let s ← j.asStr
  if s = "YES" then pure Verdict.YES
  else if s = "NO" then pure Verdict.NO
  else Except.error "Invalid enum value for side"

/-- `z.number().min(0).max(100)` — the range check Zod applies to
`confidence` and `strength`. -/
def parseScore (j : Json) : Except String Int := do
  let n ← j.asNum
  if 0 ≤ n ∧ n ≤ 100 then pure n
  else Except.error "Number out of range 0-100"

/-- One element of the `arguments` array of `AdvocateArgumentSchema`:
`{ criterion: z.string(), claim: z.string(),
   evidenceCitations: z.array(z.string()),
   strength: z.number().min(0).max(100) }`. -/
def parseCriterionArgument (j : Json) : Except String CriterionArgument := do
  let criterion ← (← getRequired j "criterion").asStr
  let claim ← (← getRequired j "claim").asStr
  let citationsJson ← (← getRequired j "evidenceCitations").asArr
  let evidenceCitations ← citationsJson.mapM Json.asStr
  let strength ← parseScore (← getRequired j "strength")
  pure { criterion := criterion
         claim := claim
         evidenceCitations := evidenceCitations
         strength := strength }

/-- The result of a successful `AdvocateArgumentSchema.parse` — the schema's
fields, before `runAdvocate` attaches the provenance `model` tag. -/
structure AdvocateArgumentParsed where
  side : Verdict
  confidence : Int
  arguments : List CriterionArgument
  weaknessesInOpposingCase : List String
  deriving DecidableEq, Repr

/-- `AdvocateArgumentSchema.parse` from `types.ts`.  Field-by-field mirror of
the Zod object schema: `side` is an enum, `confidence` and every `strength`
are range-checked numbers, `arguments` is an array of criterion-argument
objects, `weaknessesInOpposingCase` an array of strings.  The schema does not
receive the market's rubric: no check relates the `arguments` list to the
rubric's criteria (neither their names nor their count). -/
def AdvocateArgumentSchema.parse (j : Json) :
    Except String AdvocateArgumentParsed := do
  let side ← parseSide (← getRequired j "side")
  let confidence ← parseScore (← getRequired j "confidence")
  let argsJson ← (← getRequired j "arguments").asArr
  let args ← argsJson.mapM parseCriterionArgument
  let weaknessesJson ← (← getRequired j "weaknessesInOpposingCase").asArr
  let weaknesses ← weaknessesJson.mapM Json.asStr
  pure { side := side
         confidence := confidence
         arguments := args
         weaknessesInOpposingCase := weaknesses }

/-- An LLM call's request.  The floating-point `temperature` option is
elided: it does not influence any control flow the claims touch. -/
structure LLMRequest where
  systemPrompt : String
  userPrompt : String
  maxTokens : Nat

/-- An LLM response.  `content` abstracts `JSON.parse(response.content)`:
`some j` is content that parses to the JSON value `j`; `none` is content the
parse throws on. -/
structure LLMResponse where
  content : Option Json
  model : String

structure LLMClient where
  call : LLMRequest → LLMResponse

/-- `buildAdvocateSystemPrompt(side)` — the repository's prompt is a long
literal whose only input is the mandated side; the wording is abbreviated
here since no claim depends on it. -/
def buildAdvocateSystemPrompt (side : Verdict) : String :=
  "You are an advocate who must argue the " ++ side.toStr ++ " side."

/-- `buildAdvocateUserPrompt(question, evidence)` — serializes the question
and the evidence bundle; abbreviated for the same reason. -/
def buildAdvocateUserPrompt (question : MarketQuestion)
    (evidence : EvidenceBundle) : String :=
  question.question ++ " | evidence: " ++
    String.intercalate ", " (evidence.items.map (fun item => item.title))

/-- `runAdvocate(side, question, evidence, llmClient)` from
`advocates/index.ts`: build prompts, call the client, fail on invalid JSON,
validate with the schema, attach the response's model tag.  Note the returned
argument keeps the *validated response's own* `side`; the code never compares
it with the mandated `side` parameter. -/
def runAdvocate (side : Verdict) (question : MarketQuestion)
    (evidence : EvidenceBundle) (llmClient : LLMClient) :
    Except String AdvocateArgument :=
  let response := llmClient.call
    { systemPrompt := buildAdvocateSystemPrompt side
      userPrompt := buildAdvocateUserPrompt question evidence
      maxTokens := 4096 }
  match response.content with
  | none => Except.error ("Advocate " ++ side.toStr ++ " returned invalid JSON")
  | some parsed =>
    match AdvocateArgumentSchema.parse parsed with
    | Except.error e => Except.error e
    | Except.ok validated =>
      Except.ok
        { side := validated.side
          confidence := validated.confidence
          arguments := validated.arguments
          weaknessesInOpposingCase := validated.weaknessesInOpposingCase
          model := response.model }

/-- `runAdvocatesPairInParallel` — `Promise.all` of the two advocate runs;
either failure fails the pair.  The parallel join is serialized. -/
def runAdvocatesPairInParallel (question : MarketQuestion)
    (evidence : EvidenceBundle) (yesClient noClient : LLMClient) :
    Except String (AdvocateArgument × AdvocateArgument) := do
  let yes ← runAdvocate Verdict.YES question evidence yesClient
  let no ← runAdvocate Verdict.NO question evidence noClient
  pure (yes, no)

end Engine

/-! ## Concrete fixtures

Inputs taken from the repository's own tests and the spec's worked
examples, used by the witness and counterexample theorems below. -/

namespace Fixtures

open Engine

/-- The confidence-test rubric: one criterion, threshold 20. -/
def exRubric : ResolutionRubric :=
  { criteria := [{ name := "Test criterion", description := "Test", weight := 100 }]
    evidenceSources := ["test"]
    confidenceThreshold := 20 }

/-- A rubric with two criteria (full advocate coverage would need two
criterion arguments). -/
def exRubric2 : ResolutionRubric :=
  { criteria :=
      [{ name := "Data accuracy", description := "Are cited numbers verifiable?", weight := 50 },
       { name := "Coverage", description := "Does evidence cover the period?", weight := 50 }]
    evidenceSources := ["test"]
    confidenceThreshold := 20 }

def exQuestion : MarketQuestion :=
  { id := "q-1"
    question := "Did protocol X deliver superior risk-adjusted yield?"
    rubric := exRubric
    settlementDeadline := 1000 }

def exQuestion2 : MarketQuestion :=
  { id := "q-2"
    question := "Did protocol X deliver superior risk-adjusted yield?"
    rubric := exRubric2
    settlementDeadline := 1000 }

def exItemA : EvidenceItem :=
  { source := "defillama", title := "TVL report", content := "tvl data"
    url := none, retrievedAt := 5 }

def exItemC : EvidenceItem :=
  { source := "treasury", title := "Rates table", content := "rates data"
    url := none, retrievedAt := 6 }

/-- A fulfilled evidence source. -/
def srcA : EvidenceSource :=
  { name := "defillama", fetch := fun _ => Except.ok [exItemA] }

/-- A rejected evidence source (its promise rejects). -/
def srcB : EvidenceSource :=
  { name := "news", fetch := fun _ => Except.error "rate limited" }

/-- A second fulfilled evidence source. -/
def srcC : EvidenceSource :=
  { name := "treasury", fetch := fun _ => Except.ok [exItemC] }

def exBundle : EvidenceBundle :=
  { questionId := "q-2", items := [], gatheredAt := 7 }

/-- The spec's hallucination test: margin 33 (78 vs 45), threshold 20, one
fabricated citation. -/
def exRulingHalluc : JudgeRuling :=
  { finalVerdict := Verdict.YES
    scoreYes := 78
    scoreNo := 45
    criterionScores := []
    rulingText := "Test ruling"
    hallucinationsDetected := ["Fake citation: nonexistent source"]
    model := "test-model" }

/-- The exact-boundary test: margin 20 (60 vs 40), threshold 20, clean. -/
def exRulingBoundary : JudgeRuling :=
  { finalVerdict := Verdict.YES
    scoreYes := 60
    scoreNo := 40
    criterionScores := []
    rulingText := "Test ruling"
    hallucinationsDetected := []
    model := "test-model" }

/-- An internally inconsistent ruling: it declares YES although NO has the
higher aggregate score (margin 30, threshold 20, clean). -/
def exRulingInconsistent : JudgeRuling :=
  { finalVerdict := Verdict.YES
    scoreYes := 40
    scoreNo := 70
    criterionScores := []
    rulingText := "Test ruling"
    hallucinationsDetected := []
    model := "test-model" }

/-- An LLM client that returns the same response whatever the prompts — the
dependency-injection seam the repository's own mock client fills. -/
def constClient (content : Option Json) (model : String) : LLMClient :=
  { call := fun _ => { content := content, model := model } }

/-- A schema-valid advocate response covering none of the rubric's
criteria: `arguments` is empty. -/
def emptyArgsJson : Json :=
  Json.obj
    [("side", Json.str "YES"),
     ("confidence", Json.num 80),
     ("arguments", Json.arr []),
     ("weaknessesInOpposingCase", Json.arr [])]

/-- A schema-valid advocate response that declares side NO. -/
def swapSideJson : Json :=
  Json.obj
    [("side", Json.str "NO"),
     ("confidence", Json.num 75),
     ("arguments", Json.arr []),
     ("weaknessesInOpposingCase", Json.arr [])]

/-- An advocate response whose lone strength score is out of range. -/
def badStrengthJson : Json :=
  Json.obj
    [("side", Json.str "YES"),
     ("confidence", Json.num 80),
     ("arguments", Json.arr
       [Json.obj
         [("criterion", Json.str "Data accuracy"),
          ("claim", Json.str "strong claim"),
          ("evidenceCitations", Json.arr [Json.str "TVL report"]),
          ("strength", Json.num 150)]]),
     ("weaknessesInOpposingCase", Json.arr [])]

/-- The argument value `swapSideJson` validates to (model tag "llm"). -/
def argSwap : AdvocateArgument :=
  { side := Verdict.NO
    confidence := 75
    arguments := []
    weaknessesInOpposingCase := []
    model := "llm" }

/-- The argument value `emptyArgsJson` validates to (model tag "mock"). -/
def argEmpty : AdvocateArgument :=
  { side := Verdict.YES
    confidence := 80
    arguments := []
    weaknessesInOpposingCase := []
    model := "mock" }

end Fixtures

namespace Fixtures

open TrialMarket

/-- A ledger whose market 0 is Escalated; address 1 staked 2 on YES and 3 on
NO (positions on either side). -/
def sEsc : State :=
  { owner := 0
    nextMarketId := 1
    markets := upd (fun _ => defaultMarket) 0
      { defaultMarket with
          status := MarketStatus.Escalated
          yesPool := 2
          noPool := 3 }
    yesPositions := fun mid a => if mid = 0 ∧ a = 1 then 2 else 0
    noPositions := fun mid a => if mid = 0 ∧ a = 1 then 3 else 0 }

/-- The spec's payout example in integer units (stakes doubled to stay
integral): YES stakers 1 ↦ 2 and 2 ↦ 4 against a NO pool of 3, resolved YES;
total pool 9, winner pool 6; expected payouts 3 and 6. -/
def sRes : State :=
  { owner := 0
    nextMarketId := 1
    markets := upd (fun _ => defaultMarket) 0
      { defaultMarket with
          status := MarketStatus.Resolved
          outcome := Verdict.Yes
          yesPool := 6
          noPool := 3 }
    yesPositions := fun mid a =>
      if mid = 0 ∧ a = 1 then 2 else if mid = 0 ∧ a = 2 then 4 else 0
    noPositions := fun mid a => if mid = 0 ∧ a = 3 then 3 else 0 }

/-- A ledger whose market 0 already reached SettlementRequested. -/
def sReq : State :=
  { owner := 0
    nextMarketId := 1
    markets := upd (fun _ => defaultMarket) 0
      { defaultMarket with
          status := MarketStatus.SettlementRequested
          deadline := 50 }
    yesPositions := fun _ _ => 0
    noPositions := fun _ _ => 0 }

end Fixtures

/-! ## Theorems -/

@[simp] theorem upd_same {α : Type} (f : Nat → α) (k : Nat) (v : α) :
    upd f k v k = v := by
  simp [upd]

theorem upd_other {α : Type} (f : Nat → α) (k : Nat) (v : α) {n : Nat}
    (h : n ≠ k) : upd f k v n = f n := by
  simp [upd, h]

/-- C5: a non-empty `hallucinationsDetected` makes `evaluateConfidence`
escalate with a null verdict and a reason naming the offending citations,
regardless of the margin (no hypothesis restricts the scores or the
threshold). -/
theorem c5_hallucinations_force_escalate (ruling : Engine.JudgeRuling)
    (rubric : Engine.ResolutionRubric)
    (h : ruling.hallucinationsDetected ≠ []) :
    (Engine.evaluateConfidence ruling rubric).action =
        Engine.SettlementAction.ESCALATE ∧
      (Engine.evaluateConfidence ruling rubric).verdict = none ∧
      (Engine.evaluateConfidence ruling rubric).reason =
        "Hallucinations detected: " ++
          String.intercalate "; " ruling.hallucinationsDetected ++
          ". Escalating for human review." := by
  have hlen : 0 < ruling.hallucinationsDetected.length :=
    List.length_pos.mpr h
  simp [Engine.evaluateConfidence, hlen]

/-- Witness for C5, at the spec's test point: margin 33 (78 vs 45) far above
threshold 20, one fabricated citation — still ESCALATE with null verdict. -/
theorem c5_hallucinations_force_escalate_witness :
    Fixtures.exRulingHalluc.hallucinationsDetected ≠ [] ∧
      |Fixtures.exRulingHalluc.scoreYes - Fixtures.exRulingHalluc.scoreNo| = 33 ∧
      (Engine.evaluateConfidence Fixtures.exRulingHalluc
          Fixtures.exRubric).action = Engine.SettlementAction.ESCALATE ∧
      (Engine.evaluateConfidence Fixtures.exRulingHalluc
          Fixtures.exRubric).verdict = none :=
  ⟨by decide, by decide,
    (c5_hallucinations_force_escalate Fixtures.exRulingHalluc Fixtures.exRubric
      (by decide)).1,
    (c5_hallucinations_force_escalate Fixtures.exRulingHalluc Fixtures.exRubric
      (by decide)).2.1⟩

/-- C6: with no hallucinations, `evaluateConfidence` escalates (with null
verdict) exactly when the margin is strictly below the threshold; at the
exact boundary it resolves. -/
theorem c6_margin_strict_threshold (ruling : Engine.JudgeRuling)
    (rubric : Engine.ResolutionRubric)
    (h : ruling.hallucinationsDetected = []) :
    ((Engine.evaluateConfidence ruling rubric).action =
          Engine.SettlementAction.ESCALATE ∧
        (Engine.evaluateConfidence ruling rubric).verdict = none ↔
        |ruling.scoreYes - ruling.scoreNo| < rubric.confidenceThreshold) ∧
      (|ruling.scoreYes - ruling.scoreNo| = rubric.confidenceThreshold →
        (Engine.evaluateConfidence ruling rubric).action =
          Engine.SettlementAction.RESOLVE) := by
  by_cases hm : |ruling.scoreYes - ruling.scoreNo| < rubric.confidenceThreshold
  · constructor
    · simp [Engine.evaluateConfidence, h, hm]
    · intro he
      omega
  · constructor
    · simp [Engine.evaluateConfidence, h, hm]
    · intro _
      simp [Engine.evaluateConfidence, h, hm]

/-- Witness for C6, at the repository's boundary test: margin 20 equals
threshold 20 and the market resolves rather than escalates. -/
theorem c6_margin_strict_threshold_witness :
    Fixtures.exRulingBoundary.hallucinationsDetected = [] ∧
      |Fixtures.exRulingBoundary.scoreYes - Fixtures.exRulingBoundary.scoreNo| =
        Fixtures.exRubric.confidenceThreshold ∧
      (Engine.evaluateConfidence Fixtures.exRulingBoundary
          Fixtures.exRubric).action = Engine.SettlementAction.RESOLVE :=
  ⟨by decide, by decide,
    (c6_margin_strict_threshold Fixtures.exRulingBoundary Fixtures.exRubric
      (by decide)).2 (by decide)⟩

/-- C7: `evaluateConfidence` is a pure function (equal inputs give equal
outputs); the returned margin is always `|scoreYes − scoreNo|` and does not
depend on which side the ruling names as winner; and a RESOLVE decision
carries exactly the ruling's own `finalVerdict`, never re-derived from the
scores. -/
theorem c7_margin_and_verdict_trust (ruling : Engine.JudgeRuling)
    (rubric : Engine.ResolutionRubric) :
    (Engine.evaluateConfidence ruling rubric).margin =
        |ruling.scoreYes - ruling.scoreNo| ∧
      (∀ v : Engine.Verdict,
        (Engine.evaluateConfidence { ruling with finalVerdict := v }
            rubric).margin =
          (Engine.evaluateConfidence ruling rubric).margin) ∧
      ((Engine.evaluateConfidence ruling rubric).action =
          Engine.SettlementAction.RESOLVE →
        (Engine.evaluateConfidence ruling rubric).verdict =
          some ruling.finalVerdict) ∧
      (∀ (ruling' : Engine.JudgeRuling) (rubric' : Engine.ResolutionRubric),
        ruling' = ruling → rubric' = rubric →
        Engine.evaluateConfidence ruling' rubric' =
          Engine.evaluateConfidence ruling rubric) := by
  refine ⟨?_, ?_, ?_, ?_⟩
  · unfold Engine.evaluateConfidence
    split
    · simp_all
    · dsimp only
      split <;> simp_all
  · intro v
    unfold Engine.evaluateConfidence
    split
    · simp_all
    · dsimp only
      split <;> simp_all
  · unfold Engine.evaluateConfidence
    split <;> simp_all
    split <;> simp_all
  · intro ruling' rubric' h1 h2
    rw [h1, h2]

/-- Witness for C7, at an internally inconsistent ruling: it declares YES
while NO holds the higher score (40 vs 70, margin 30 ≥ threshold 20) — the
evaluator still resolves to the declared YES. -/
theorem c7_margin_and_verdict_trust_witness :
    (Engine.evaluateConfidence Fixtures.exRulingInconsistent
        Fixtures.exRubric).action = Engine.SettlementAction.RESOLVE ∧
      (Engine.evaluateConfidence Fixtures.exRulingInconsistent
          Fixtures.exRubric).verdict = some Engine.Verdict.YES ∧
      (Engine.evaluateConfidence Fixtures.exRulingInconsistent
          Fixtures.exRubric).margin = 30 :=
  ⟨by decide,
    (c7_margin_and_verdict_trust Fixtures.exRulingInconsistent
      Fixtures.exRubric).2.2.1 (by decide),
    by decide⟩

/-- The item-collecting fold of `gatherEvidence`, characterized: it appends,
in order, the items of the fulfilled outcomes and skips the rejected ones. -/
theorem foldl_settled_items
    (results : List (Except String (List Engine.EvidenceItem))) :
    ∀ acc : List Engine.EvidenceItem,
      results.foldl
          (fun acc r =>
            match r with
            | Except.ok value => acc ++ value
            | Except.error _ => acc)
          acc =
        acc ++ (results.map
          (fun r =>
            match r with
            | Except.ok value => value
            | Except.error _ => [])).flatten := by
  induction results with
  | nil => intro acc; simp
  | cons r rest ih =>
    intro acc
    cases r with
    | ok value => simp [List.foldl_cons, ih]
    | error e => simp [List.foldl_cons, ih]

/-- C9: `gatherEvidence` never fails as a whole — it totally returns a
bundle whose items are exactly the concatenation, in source order, of the
items of the fulfilled sources; a rejected source is simply omitted (the
bundle equals the one gathered without it); and when every source fails the
result is the legitimate empty bundle, not an error. -/
theorem c9_gather_evidence_partial_failure (question : Engine.MarketQuestion)
    (now : Nat) :
    (∀ sources : List Engine.EvidenceSource,
        (Engine.gatherEvidence question sources now).items =
          (sources.map
            (fun src =>
              match src.fetch question with
              | Except.ok items => items
              | Except.error _ => [])).flatten) ∧
      (∀ (pre post : List Engine.EvidenceSource)
          (src : Engine.EvidenceSource) (e : String),
        src.fetch question = Except.error e →
        Engine.gatherEvidence question (pre ++ src :: post) now =
          Engine.gatherEvidence question (pre ++ post) now) ∧
      (∀ sources : List Engine.EvidenceSource,
        (∀ src ∈ sources, ∃ e, src.fetch question = Except.error e) →
        (Engine.gatherEvidence question sources now).items = []) := by
  have hitems : ∀ sources : List Engine.EvidenceSource,
      (Engine.gatherEvidence question sources now).items =
        (sources.map
          (fun src =>
            match src.fetch question with
            | Except.ok items => items
            | Except.error _ => [])).flatten := by
    intro sources
    unfold Engine.gatherEvidence
    dsimp only
    rw [foldl_settled_items]
    simp [List.map_map]
    rfl
  refine ⟨hitems, ?_, ?_⟩
  · intro pre post src e hfail
    unfold Engine.gatherEvidence
    dsimp only
    rw [foldl_settled_items, foldl_settled_items]
    simp [List.map_map, hfail]
  · intro sources hall
    rw [hitems]
    rw [List.flatten_eq_nil_iff]
    intro l hl
    rw [List.mem_map] at hl
    obtain ⟨src, hsrc, rfl⟩ := hl
    obtain ⟨e, he⟩ := hall src hsrc
    rw [he]

/-- Witness for C9: three sources of which the middle one rejects — the
bundle holds exactly the two fulfilled sources' items, and equals the bundle
gathered without the failing source. -/
theorem c9_gather_evidence_partial_failure_witness :
    Fixtures.srcB.fetch Fixtures.exQuestion = Except.error "rate limited" ∧
      (Engine.gatherEvidence Fixtures.exQuestion
          [Fixtures.srcA, Fixtures.srcB, Fixtures.srcC] 7).items =
        [Fixtures.exItemA, Fixtures.exItemC] ∧
      Engine.gatherEvidence Fixtures.exQuestion
          [Fixtures.srcA, Fixtures.srcB, Fixtures.srcC] 7 =
        Engine.gatherEvidence Fixtures.exQuestion
          [Fixtures.srcA, Fixtures.srcC] 7 :=
  ⟨rfl, rfl,
    (c9_gather_evidence_partial_failure Fixtures.exQuestion 7).2.1
      [Fixtures.srcA] [Fixtures.srcC] Fixtures.srcB "rate limited" rfl⟩

/-- Destructuring a successful `Except` bind. -/
theorem except_bind_ok {α β : Type} {x : Except String α}
    {f : α → Except String β} {b : β} (h : x >>= f = Except.ok b) :
    ∃ a, x = Except.ok a ∧ f a = Except.ok b := by
  cases x with
  | ok a => exact ⟨a, rfl, h⟩
  | error e => simp [Bind.bind, Except.bind] at h

/-- `parseScore` only accepts numbers within 0–100. -/
theorem parseScore_ok_range {j : Engine.Json} {n : Int}
    (h : Engine.parseScore j = Except.ok n) : 0 ≤ n ∧ n ≤ 100 := by
  unfold Engine.parseScore at h
  obtain ⟨m, hm, hf⟩ := except_bind_ok h
  by_cases hr : 0 ≤ m ∧ m ≤ 100
  · simp [hr, pure, Except.pure] at hf
    exact hf ▸ hr
  · simp [hr] at hf

/-- A criterion argument accepted by the schema has its strength in 0–100. -/
theorem parseCriterionArgument_ok_range {j : Engine.Json}
    {a : Engine.CriterionArgument}
    (h : Engine.parseCriterionArgument j = Except.ok a) :
    0 ≤ a.strength ∧ a.strength ≤ 100 := by
  unfold Engine.parseCriterionArgument at h
  obtain ⟨j1, _, h⟩ := except_bind_ok h
  obtain ⟨criterion, _, h⟩ := except_bind_ok h
  obtain ⟨j2, _, h⟩ := except_bind_ok h
  obtain ⟨claim, _, h⟩ := except_bind_ok h
  obtain ⟨j3, _, h⟩ := except_bind_ok h
  obtain ⟨citationsJson, _, h⟩ := except_bind_ok h
  obtain ⟨citations, _, h⟩ := except_bind_ok h
  obtain ⟨j4, _, h⟩ := except_bind_ok h
  obtain ⟨strength, hstr, h⟩ := except_bind_ok h
  simp [pure, Except.pure] at h
  have := parseScore_ok_range hstr
  rw [← h]
  exact this

/-- Every element produced by a successful `mapM` satisfies any property the
element-wise parse guarantees. -/
theorem mapM_ok_forall {α : Type} {f : Engine.Json → Except String α}
    {P : α → Prop} (hf : ∀ j a, f j = Except.ok a → P a) :
    ∀ (js : List Engine.Json) (as : List α),
      js.mapM f = Except.ok as → ∀ a ∈ as, P a := by
  intro js
  induction js with
  | nil =>
    intro as h a ha
    rw [List.mapM_nil] at h
    rw [show (pure [] : Except String (List α)) = Except.ok [] from rfl] at h
    cases h
    simp at ha
  | cons j rest ih =>
    intro as h a ha
    rw [List.mapM_cons] at h
    obtain ⟨b, hb, h⟩ := except_bind_ok h
    obtain ⟨bs, hbs, h⟩ := except_bind_ok h
    simp [pure, Except.pure] at h
    subst h
    rcases List.mem_cons.mp ha with hhead | htail
    · exact hhead ▸ hf j b hb
    · exact ih bs hbs a htail

/-- C8 counterexample: the market's rubric has two criteria, the advocate
response covers none of them (its `arguments` array is empty), yet
`runAdvocate` accepts it — the claim's "incomplete rubric coverage is a
fatal validation error" does not hold on the code. -/
theorem c8_counterexample_coverage_not_checked :
    Engine.runAdvocate Engine.Verdict.YES Fixtures.exQuestion2
        Fixtures.exBundle
        (Fixtures.constClient (some Fixtures.emptyArgsJson) "mock") =
      Except.ok Fixtures.argEmpty := rfl

/-- C8 (amended): advocate validation is strict about JSON well-formedness,
types, enum values and score ranges — invalid JSON fails the call, any schema
violation propagates as the call's error, and every accepted value has its
confidence and strengths within 0–100 — but it never compares the response
against the market's rubric: acceptance is independent of the question and
its rubric, and a response covering no rubric criterion passes. -/
theorem c8_strict_schema_validation :
    (∀ (side : Engine.Verdict) (q : Engine.MarketQuestion)
        (ev : Engine.EvidenceBundle) (model : String),
      Engine.runAdvocate side q ev (Fixtures.constClient none model) =
        Except.error ("Advocate " ++ side.toStr ++ " returned invalid JSON")) ∧
      (∀ (j : Engine.Json) (e : String) (side : Engine.Verdict)
          (q : Engine.MarketQuestion) (ev : Engine.EvidenceBundle)
          (model : String),
        Engine.AdvocateArgumentSchema.parse j = Except.error e →
        Engine.runAdvocate side q ev (Fixtures.constClient (some j) model) =
          Except.error e) ∧
      (∀ (j : Engine.Json) (v : Engine.AdvocateArgumentParsed),
        Engine.AdvocateArgumentSchema.parse j = Except.ok v →
        (0 ≤ v.confidence ∧ v.confidence ≤ 100) ∧
          ∀ a ∈ v.arguments, 0 ≤ a.strength ∧ a.strength ≤ 100) ∧
      (∀ (side : Engine.Verdict) (q q' : Engine.MarketQuestion)
          (ev ev' : Engine.EvidenceBundle) (j : Engine.Json) (model : String),
        Engine.runAdvocate side q ev (Fixtures.constClient (some j) model) =
          Engine.runAdvocate side q' ev' (Fixtures.constClient (some j) model)) := by
  refine ⟨?_, ?_, ?_, ?_⟩
  · intro side q ev model
    rfl
  · intro j e side q ev model h
    unfold Engine.runAdvocate
    simp [Fixtures.constClient, h]
  · intro j v h
    unfold Engine.AdvocateArgumentSchema.parse at h
    obtain ⟨j1, _, h⟩ := except_bind_ok h
    obtain ⟨side, _, h⟩ := except_bind_ok h
    obtain ⟨j2, _, h⟩ := except_bind_ok h
    obtain ⟨confidence, hconf, h⟩ := except_bind_ok h
    obtain ⟨j3, _, h⟩ := except_bind_ok h
    obtain ⟨argsJson, _, h⟩ := except_bind_ok h
    obtain ⟨args, hargs, h⟩ := except_bind_ok h
    obtain ⟨j4, _, h⟩ := except_bind_ok h
    obtain ⟨weakJson, _, h⟩ := except_bind_ok h
    obtain ⟨weak, _, h⟩ := except_bind_ok h
    simp [pure, Except.pure] at h
    subst h
    refine ⟨parseScore_ok_range hconf, ?_⟩
    exact mapM_ok_forall (fun j a ha => parseCriterionArgument_ok_range ha)
      argsJson args hargs
  · intro side q q' ev ev' j model
    rfl

/-- Witness for C8 (amended): a response whose lone strength is 150 is
rejected by the schema and fails the advocate call with that error. -/
theorem c8_strict_schema_validation_witness :
    Engine.AdvocateArgumentSchema.parse Fixtures.badStrengthJson =
        Except.error "Number out of range 0-100" ∧
      Engine.runAdvocate Engine.Verdict.YES Fixtures.exQuestion2
          Fixtures.exBundle
          (Fixtures.constClient (some Fixtures.badStrengthJson) "mock") =
        Except.error "Number out of range 0-100" :=
  ⟨rfl,
    c8_strict_schema_validation.2.1 Fixtures.badStrengthJson
      "Number out of range 0-100" Engine.Verdict.YES Fixtures.exQuestion2
      Fixtures.exBundle "mock" rfl⟩

/-- C10: `runAdvocate` never compares the validated response's `side` with
the mandated side — a schema-valid response declaring NO is returned as-is by
`runAdvocate` invoked with YES, so `runAdvocatesPairInParallel` returns as
its `yes` entry an argument that declares itself for NO. -/
theorem c10_mandated_side_not_enforced (q : Engine.MarketQuestion)
    (ev : Engine.EvidenceBundle) :
    Engine.runAdvocate Engine.Verdict.YES q ev
        (Fixtures.constClient (some Fixtures.swapSideJson) "llm") =
      Except.ok Fixtures.argSwap ∧
      Fixtures.argSwap.side = Engine.Verdict.NO ∧
      Engine.runAdvocatesPairInParallel q ev
          (Fixtures.constClient (some Fixtures.swapSideJson) "llm")
          (Fixtures.constClient (some Fixtures.swapSideJson) "llm") =
        Except.ok (Fixtures.argSwap, Fixtures.argSwap) :=
  ⟨rfl, rfl, rfl⟩

/-- C1: on an Escalated market, a caller with a non-zero position on either
side is refunded exactly their total stake, with both positions zeroed in
the state the transfer is paid from; a repeat call by the same caller is
rejected, and a caller with nothing staked is rejected — and a rejection is
a revert, so no funds move.  (`claimRefund` is modelled from the spec; see
its doc comment.) -/
theorem c1_claim_refund_exact_once (s : TrialMarket.State) (mid a : Nat)
    (hst : (s.markets mid).status = TrialMarket.MarketStatus.Escalated)
    (hpos : 0 < s.yesPositions mid a + s.noPositions mid a) :
    ∃ s' : TrialMarket.State,
      TrialMarket.claimRefund s mid a =
          Except.ok (s', s.yesPositions mid a + s.noPositions mid a) ∧
        s'.yesPositions mid a = 0 ∧
        s'.noPositions mid a = 0 ∧
        TrialMarket.claimRefund s' mid a =
          Except.error "No position to refund" ∧
        (∀ b, s.yesPositions mid b + s.noPositions mid b = 0 →
          TrialMarket.claimRefund s mid b =
            Except.error "No position to refund") := by
  refine ⟨{ s with
      yesPositions := upd s.yesPositions mid (upd (s.yesPositions mid) a 0)
      noPositions := upd s.noPositions mid (upd (s.noPositions mid) a 0) },
    ?_, ?_, ?_, ?_, ?_⟩
  · simp [TrialMarket.claimRefund, hst, hpos]
  · simp [upd]
  · simp [upd]
  · simp [TrialMarket.claimRefund, hst, upd]
  · intro b hb
    simp [TrialMarket.claimRefund, hst, hb]

/-- Witness for C1: market 0 of `sEsc` is Escalated and address 1 staked 2 on
YES and 3 on NO — the refund pays exactly 5, and the follow-up call by the
same address is rejected. -/
theorem c1_claim_refund_exact_once_witness :
    ∃ s' : TrialMarket.State,
      TrialMarket.claimRefund Fixtures.sEsc 0 1 = Except.ok (s', 5) ∧
        TrialMarket.claimRefund s' 0 1 =
          Except.error "No position to refund" := by
  obtain ⟨s', h1, _, _, h4, _⟩ :=
    c1_claim_refund_exact_once Fixtures.sEsc 0 1 rfl (by decide)
  exact ⟨s', h1, h4⟩

/-- C2: on a market resolved with a winning side of pool `W > 0`, a caller
with stake `s > 0` on that side is paid exactly
`s * (yesPool + noPool) / W` (integer division), with the winning-side
position zeroed in the state the transfer is paid from; a second call by the
same caller and a call by a caller with no winning-side position are
rejected. -/
theorem c2_claim_winnings_proportional_once (s : TrialMarket.State)
    (mid a : Nat)
    (hst : (s.markets mid).status = TrialMarket.MarketStatus.Resolved)
    (hW : 0 < TrialMarket.winnerPool (s.markets mid))
    (hpos : 0 < TrialMarket.winnerPos s mid a) :
    ∃ s' : TrialMarket.State,
      TrialMarket.claimWinnings s mid a =
          Except.ok (s', TrialMarket.winnerPos s mid a *
            ((s.markets mid).yesPool + (s.markets mid).noPool) /
            TrialMarket.winnerPool (s.markets mid)) ∧
        TrialMarket.winnerPos s' mid a = 0 ∧
        s'.markets = s.markets ∧
        TrialMarket.claimWinnings s' mid a =
          Except.error "No winning position" ∧
        (∀ b, TrialMarket.winnerPos s mid b = 0 →
          TrialMarket.claimWinnings s mid b =
            Except.error "No winning position") := by
  by_cases ho : (s.markets mid).outcome = TrialMarket.Verdict.Yes
  · have hp : 0 < s.yesPositions mid a := by
      simpa [TrialMarket.winnerPos, ho] using hpos
    have hw : 0 < (s.markets mid).yesPool := by
      simpa [TrialMarket.winnerPool, ho] using hW
    refine ⟨{ s with
        yesPositions := upd s.yesPositions mid
          (upd (s.yesPositions mid) a 0) }, ?_, ?_, rfl, ?_, ?_⟩
    · simp [TrialMarket.claimWinnings, TrialMarket.winnerPos,
        TrialMarket.winnerPool, hst, ho, hp, hw]
    · simp [TrialMarket.winnerPos, ho, upd]
    · simp [TrialMarket.claimWinnings, hst, ho, upd]
    · intro b hb
      have hb' : s.yesPositions mid b = 0 := by
        simpa [TrialMarket.winnerPos, ho] using hb
      simp [TrialMarket.claimWinnings, hst, ho, hb']
  · have hp : 0 < s.noPositions mid a := by
      simpa [TrialMarket.winnerPos, ho] using hpos
    have hw : 0 < (s.markets mid).noPool := by
      simpa [TrialMarket.winnerPool, ho] using hW
    refine ⟨{ s with
        noPositions := upd s.noPositions mid
          (upd (s.noPositions mid) a 0) }, ?_, ?_, rfl, ?_, ?_⟩
    · simp [TrialMarket.claimWinnings, TrialMarket.winnerPos,
        TrialMarket.winnerPool, hst, ho, hp, hw]
    · simp [TrialMarket.winnerPos, ho, upd]
    · simp [TrialMarket.claimWinnings, hst, ho, upd]
    · intro b hb
      have hb' : s.noPositions mid b = 0 := by
        simpa [TrialMarket.winnerPos, ho] using hb
      simp [TrialMarket.claimWinnings, hst, ho, hb']

/-- Witness for C2, at the spec's worked example (scaled to integers):
YES staker 1 holds 2 of the 6-unit winning pool against a total pool of 9 —
paid exactly 2 * 9 / 6 = 3, and a second claim is rejected. -/
theorem c2_claim_winnings_proportional_once_witness :
    ∃ s' : TrialMarket.State,
      TrialMarket.claimWinnings Fixtures.sRes 0 1 = Except.ok (s', 3) ∧
        TrialMarket.claimWinnings s' 0 1 =
          Except.error "No winning position" := by
  obtain ⟨s', h1, _, _, h4, _⟩ :=
    c2_claim_winnings_proportional_once Fixtures.sRes 0 1 rfl
      (by decide) (by decide)
  exact ⟨s', h1, h4⟩

/-- C4: the market lifecycle only moves along
`Open → SettlementRequested → {Resolved, Escalated}` and never regresses:
`requestSettlement` is rejected off Open (so a second call fails), `settle`
and `escalate` are rejected off SettlementRequested (so they fail once the
market is Resolved or Escalated), and every successful ledger operation
moves every market's status along the step relation only (the claims leave
every status untouched; `createMarket` needs the freshly allocated slot to
still hold the mapping default, whose status is Open). -/
theorem c4_status_forward_only (s : TrialMarket.State) :
    (∀ mid now,
      (s.markets mid).status ≠ TrialMarket.MarketStatus.Open →
      TrialMarket.requestSettlement s mid now =
        Except.error "Market not open") ∧
      (∀ mid o sy sn th sender,
        (s.markets mid).status ≠
            TrialMarket.MarketStatus.SettlementRequested →
        ∃ e, TrialMarket.settle s mid o sy sn th sender = Except.error e) ∧
      (∀ mid th sender,
        (s.markets mid).status ≠
            TrialMarket.MarketStatus.SettlementRequested →
        ∃ e, TrialMarket.escalate s mid th sender = Except.error e) ∧
      (∀ q rh dl now s' newId,
        TrialMarket.createMarket s q rh dl now = Except.ok (s', newId) →
        (s.markets s.nextMarketId).status = TrialMarket.MarketStatus.Open →
        ∀ n, TrialMarket.StatusStep (s.markets n).status
          (s'.markets n).status) ∧
      (∀ mid side sender value now s',
        TrialMarket.takePosition s mid side sender value now =
          Except.ok s' →
        ∀ n, (s'.markets n).status = (s.markets n).status) ∧
      (∀ mid now s',
        TrialMarket.requestSettlement s mid now = Except.ok s' →
        ∀ n, TrialMarket.StatusStep (s.markets n).status
          (s'.markets n).status) ∧
      (∀ mid o sy sn th sender s',
        TrialMarket.settle s mid o sy sn th sender = Except.ok s' →
        ∀ n, TrialMarket.StatusStep (s.markets n).status
          (s'.markets n).status) ∧
      (∀ mid th sender s',
        TrialMarket.escalate s mid th sender = Except.ok s' →
        ∀ n, TrialMarket.StatusStep (s.markets n).status
          (s'.markets n).status) ∧
      (∀ mid a r,
        TrialMarket.claimWinnings s mid a = Except.ok r →
        ∀ n, (r.1.markets n).status = (s.markets n).status) ∧
      (∀ mid a r,
        TrialMarket.claimRefund s mid a = Except.ok r →
        ∀ n, (r.1.markets n).status = (s.markets n).status) := by
  refine ⟨?_, ?_, ?_, ?_, ?_, ?_, ?_, ?_, ?_, ?_⟩
  · intro mid now h
    simp [TrialMarket.requestSettlement, h]
  · intro mid o sy sn th sender h
    by_cases hs : sender = s.owner
    · exact ⟨"Settlement not requested", by simp [TrialMarket.settle, hs, h]⟩
    · exact ⟨"Ownable: caller is not the owner",
        by simp [TrialMarket.settle, hs]⟩
  · intro mid th sender h
    by_cases hs : sender = s.owner
    · exact ⟨"Settlement not requested",
        by simp [TrialMarket.escalate, hs, h]⟩
    · exact ⟨"Ownable: caller is not the owner",
        by simp [TrialMarket.escalate, hs]⟩
  · intro q rh dl now s' newId hok hfresh n
    unfold TrialMarket.createMarket at hok
    by_cases h1 : dl > now
    · simp [h1] at hok
      obtain ⟨hs', _⟩ := hok
      subst hs'
      by_cases hn : n = s.nextMarketId
      · subst hn
        refine Or.inl ?_
        rw [hfresh]
        simp [upd]
      · refine Or.inl ?_
        simp [upd_other _ _ _ hn]
    · simp [h1] at hok
  · intro mid side sender value now s' hok n
    unfold TrialMarket.takePosition at hok
    dsimp only at hok
    by_cases h1 :
        (s.markets mid).status = TrialMarket.MarketStatus.Open
    swap
    · simp [h1] at hok
    by_cases h2 : now < (s.markets mid).deadline
    swap
    · simp [h1, h2] at hok
    by_cases h3 : side = TrialMarket.Verdict.Yes ∨
        side = TrialMarket.Verdict.No
    swap
    · simp [h1, h2, h3] at hok
    by_cases h4 : value > 0
    swap
    · simp [h1, h2, h3, h4] at hok
    by_cases h5 : side = TrialMarket.Verdict.Yes
    · simp [h1, h2, h3, h4, h5] at hok
      subst hok
      by_cases hn : n = mid
      · subst hn
        simp [upd, h1]
      · simp [upd_other _ _ _ hn]
    · have h6 : side = TrialMarket.Verdict.No := h3.resolve_left h5
      simp [h1, h2, h4, h5, h6] at hok
      subst hok
      by_cases hn : n = mid
      · subst hn
        simp [upd, h1]
      · simp [upd_other _ _ _ hn]
  · intro mid now s' hok n
    unfold TrialMarket.requestSettlement at hok
    dsimp only at hok
    by_cases h1 :
        (s.markets mid).status = TrialMarket.MarketStatus.Open
    swap
    · simp [h1] at hok
    by_cases h2 : now ≥ (s.markets mid).deadline
    swap
    · simp [h1, h2] at hok
    simp [h1, h2] at hok
    subst hok
    by_cases hn : n = mid
    · subst hn
      refine Or.inr (Or.inl ⟨h1, ?_⟩)
      simp [upd]
    · refine Or.inl ?_
      simp [upd_other _ _ _ hn]
  · intro mid o sy sn th sender s' hok n
    unfold TrialMarket.settle at hok
    dsimp only at hok
    by_cases hs : sender = s.owner
    swap
    · simp [hs] at hok
    by_cases h1 : (s.markets mid).status =
        TrialMarket.MarketStatus.SettlementRequested
    swap
    · simp [hs, h1] at hok
    by_cases h2 : o = TrialMarket.Verdict.Yes ∨ o = TrialMarket.Verdict.No
    swap
    · simp [hs, h1, h2] at hok
    simp [hs, h1, h2] at hok
    subst hok
    by_cases hn : n = mid
    · subst hn
      refine Or.inr (Or.inr ⟨h1, Or.inl ?_⟩)
      simp [upd]
    · refine Or.inl ?_
      simp [upd_other _ _ _ hn]
  · intro mid th sender s' hok n
    unfold TrialMarket.escalate at hok
    dsimp only at hok
    by_cases hs : sender = s.owner
    swap
    · simp [hs] at hok
    by_cases h1 : (s.markets mid).status =
        TrialMarket.MarketStatus.SettlementRequested
    swap
    · simp [hs, h1] at hok
    simp [hs, h1] at hok
    subst hok
    by_cases hn : n = mid
    · subst hn
      refine Or.inr (Or.inr ⟨h1, Or.inr ?_⟩)
      simp [upd]
    · refine Or.inl ?_
      simp [upd_other _ _ _ hn]
  · intro mid a r hok n
    unfold TrialMarket.claimWinnings at hok
    dsimp only at hok
    by_cases h1 :
        (s.markets mid).status = TrialMarket.MarketStatus.Resolved
    swap
    · simp [h1] at hok
    by_cases h2 : (s.markets mid).outcome = TrialMarket.Verdict.Yes
    · by_cases h3 : 0 < s.yesPositions mid a
      swap
      · simp [h1, h2, h3] at hok
      by_cases h4 : 0 < (s.markets mid).yesPool
      swap
      · simp [h1, h2, h3, h4] at hok
      simp [h1, h2, h3, h4] at hok
      rw [← hok]
    · by_cases h3 : 0 < s.noPositions mid a
      swap
      · simp [h1, h2, h3] at hok
      by_cases h4 : 0 < (s.markets mid).noPool
      swap
      · simp [h1, h2, h3, h4] at hok
      simp [h1, h2, h3, h4] at hok
      rw [← hok]
  · intro mid a r hok n
    unfold TrialMarket.claimRefund at hok
    dsimp only at hok
    by_cases h1 :
        (s.markets mid).status = TrialMarket.MarketStatus.Escalated
    swap
    · simp [h1] at hok
    by_cases h2 : 0 < s.yesPositions mid a + s.noPositions mid a
    swap
    · simp [h1, h2] at hok
    simp [h1, h2] at hok
    rw [← hok]

/-- Witness for C4: a market already at SettlementRequested rejects a second
`requestSettlement`, and an Escalated market rejects both `settle` and
`escalate`. -/
theorem c4_status_forward_only_witness :
    TrialMarket.requestSettlement Fixtures.sReq 0 99 =
        Except.error "Market not open" ∧
      (∃ e, TrialMarket.settle Fixtures.sEsc 0 TrialMarket.Verdict.Yes
        78 45 7 0 = Except.error e) ∧
      (∃ e, TrialMarket.escalate Fixtures.sEsc 0 7 0 = Except.error e) :=
  ⟨(c4_status_forward_only Fixtures.sReq).1 0 99 (by decide),
    (c4_status_forward_only Fixtures.sEsc).2.1 0 TrialMarket.Verdict.Yes
      78 45 7 0 (by decide),
    (c4_status_forward_only Fixtures.sEsc).2.2.1 0 7 0 (by decide)⟩

/-- The winning pool never exceeds the combined pool. -/
theorem winnerPool_le_totalPool (m : TrialMarket.Market) :
    TrialMarket.winnerPool m ≤ m.yesPool + m.noPool := by
  unfold TrialMarket.winnerPool
  split <;> omega

/-- A successful `claimWinnings`: the payout, the untouched market record,
the zeroed winning position, and the untouched positions of other callers. -/
theorem claimWinnings_ok_effects (s : TrialMarket.State) (mid a : Nat)
    (hst : (s.markets mid).status = TrialMarket.MarketStatus.Resolved)
    (hW : 0 < TrialMarket.winnerPool (s.markets mid))
    (hp : 0 < TrialMarket.winnerPos s mid a) :
    ∃ s', TrialMarket.claimWinnings s mid a =
        Except.ok (s', TrialMarket.winnerPos s mid a *
          ((s.markets mid).yesPool + (s.markets mid).noPool) /
          TrialMarket.winnerPool (s.markets mid)) ∧
      s'.markets = s.markets ∧
      TrialMarket.winnerPos s' mid a = 0 ∧
      ∀ b, b ≠ a → TrialMarket.winnerPos s' mid b =
        TrialMarket.winnerPos s mid b := by
  by_cases ho : (s.markets mid).outcome = TrialMarket.Verdict.Yes
  · have hp' : 0 < s.yesPositions mid a := by
      simpa [TrialMarket.winnerPos, ho] using hp
    have hw' : 0 < (s.markets mid).yesPool := by
      simpa [TrialMarket.winnerPool, ho] using hW
    refine ⟨{ s with
        yesPositions := upd s.yesPositions mid
          (upd (s.yesPositions mid) a 0) }, ?_, rfl, ?_, ?_⟩
    · simp [TrialMarket.claimWinnings, TrialMarket.winnerPos,
        TrialMarket.winnerPool, hst, ho, hp', hw']
    · simp [TrialMarket.winnerPos, ho, upd]
    · intro b hb
      simp [TrialMarket.winnerPos, ho, upd, hb]
  · have hp' : 0 < s.noPositions mid a := by
      simpa [TrialMarket.winnerPos, ho] using hp
    have hw' : 0 < (s.markets mid).noPool := by
      simpa [TrialMarket.winnerPool, ho] using hW
    refine ⟨{ s with
        noPositions := upd s.noPositions mid
          (upd (s.noPositions mid) a 0) }, ?_, rfl, ?_, ?_⟩
    · simp [TrialMarket.claimWinnings, TrialMarket.winnerPos,
        TrialMarket.winnerPool, hst, ho, hp', hw']
    · simp [TrialMarket.winnerPos, ho, upd]
    · intro b hb
      simp [TrialMarket.winnerPos, ho, upd, hb]

/-- `claimWinnings` with no winning position reverts. -/
theorem claimWinnings_zero_pos (s : TrialMarket.State) (mid a : Nat)
    (hst : (s.markets mid).status = TrialMarket.MarketStatus.Resolved)
    (hp : TrialMarket.winnerPos s mid a = 0) :
    TrialMarket.claimWinnings s mid a =
      Except.error "No winning position" := by
  by_cases ho : (s.markets mid).outcome = TrialMarket.Verdict.Yes
  · have hp' : s.yesPositions mid a = 0 := by
      simpa [TrialMarket.winnerPos, ho] using hp
    simp [TrialMarket.claimWinnings, hst, ho, hp']
  · have hp' : s.noPositions mid a = 0 := by
      simpa [TrialMarket.winnerPos, ho] using hp
    simp [TrialMarket.claimWinnings, hst, ho, hp']

/-- The total paid by a claim sequence of pairwise-distinct callers on a
resolved market is the sum of the individual floor payouts, taken at the
state as of resolution. -/
theorem runClaims_paid (mid : Nat) :
    ∀ (callers : List Nat) (s : TrialMarket.State), callers.Nodup →
      (s.markets mid).status = TrialMarket.MarketStatus.Resolved →
      0 < TrialMarket.winnerPool (s.markets mid) →
      (TrialMarket.runClaims s mid callers).2 =
        (callers.map (fun a => TrialMarket.winnerPos s mid a *
          ((s.markets mid).yesPool + (s.markets mid).noPool) /
          TrialMarket.winnerPool (s.markets mid))).sum := by
  intro callers
  induction callers with
  | nil =>
    intro s _ _ _
    simp [TrialMarket.runClaims]
  | cons a rest ih =>
    intro s hnd hst hW
    obtain ⟨hna, hndr⟩ := List.nodup_cons.mp hnd
    by_cases hp : TrialMarket.winnerPos s mid a = 0
    · rw [List.map_cons, List.sum_cons, hp]
      simp only [Nat.zero_mul, Nat.zero_div, Nat.zero_add]
      rw [TrialMarket.runClaims,
        claimWinnings_zero_pos s mid a hst hp]
      exact ih s hndr hst hW
    · obtain ⟨s', heq, hm, _, hother⟩ :=
        claimWinnings_ok_effects s mid a hst hW (Nat.pos_of_ne_zero hp)
      have hst' : (s'.markets mid).status =
          TrialMarket.MarketStatus.Resolved := by
        rw [hm]; exact hst
      have hW' : 0 < TrialMarket.winnerPool (s'.markets mid) := by
        rw [hm]; exact hW
      rw [TrialMarket.runClaims, heq]
      dsimp only
      rw [ih s' hndr hst' hW']
      rw [List.map_cons, List.sum_cons]
      congr 1
      rw [hm]
      refine congrArg List.sum (List.map_congr_left ?_)
      intro b hb
      rw [hother b (fun hba => hna (hba ▸ hb))]

/-- List arithmetic: `W` times the summed floor payouts is at most `P` times
the summed stakes. -/
theorem sum_payout_mul_le (P W : Nat) (ps : List Nat) :
    W * (ps.map (fun p => p * P / W)).sum ≤ P * ps.sum := by
  induction ps with
  | nil => simp
  | cons p rest ih =>
    rw [List.map_cons, List.sum_cons, List.sum_cons]
    have h1 : W * (p * P / W) ≤ p * P := by
      rw [Nat.mul_comm]
      exact Nat.div_mul_le_self (p * P) W
    calc W * ((p * P / W) + (rest.map (fun p => p * P / W)).sum)
        = W * (p * P / W) + W * (rest.map (fun p => p * P / W)).sum := by
          ring
      _ ≤ p * P + P * rest.sum := Nat.add_le_add h1 ih
      _ = P * (p + rest.sum) := by ring

/-- List arithmetic: each flooring loses at most `W - 1`, so `P` times the
summed stakes is at most `W` times the summed payouts plus the accumulated
remainders. -/
theorem sum_payout_mod_bound (P W : Nat) (hW : 0 < W) (ps : List Nat) :
    P * ps.sum ≤
      W * (ps.map (fun p => p * P / W)).sum + ps.length * (W - 1) := by
  induction ps with
  | nil => simp
  | cons p rest ih =>
    rw [List.map_cons, List.sum_cons, List.sum_cons, List.length_cons]
    have hmod : p * P % W < W := Nat.mod_lt _ hW
    have hdm : W * (p * P / W) + p * P % W = p * P :=
      Nat.div_add_mod (p * P) W
    have hstep : p * P ≤ W * (p * P / W) + (W - 1) := by omega
    calc P * (p + rest.sum) = p * P + P * rest.sum := by ring
      _ ≤ (W * (p * P / W) + (W - 1)) +
          (W * (rest.map (fun p => p * P / W)).sum +
            rest.length * (W - 1)) := Nat.add_le_add hstep ih
      _ = W * ((p * P / W) + (rest.map (fun p => p * P / W)).sum) +
          (rest.length + 1) * (W - 1) := by ring

/-- C3: conservation of the pool under claims.  For a resolved market with
winning pool `W > 0` and any pairwise-distinct set of callers, claimed in any
order, whose winning-side stakes sum to at most `W` (the spec's pool
invariant restricted to those callers): the total transferred equals the sum
of the individual floor payouts; it never exceeds the total pool
`P = yesPool + noPool` as of resolution; when the callers' stakes exhaust the
winning pool, the shortfall is only the integer-division remainder
(`P < paid + number of callers`); and when some winning stake never claims
(the claimed stakes do not exhaust `W`), strictly less than `P` is paid. -/
theorem c3_payout_conservation (s : TrialMarket.State) (mid : Nat)
    (callers : List Nat) (hnd : callers.Nodup)
    (hst : (s.markets mid).status = TrialMarket.MarketStatus.Resolved)
    (hW : 0 < TrialMarket.winnerPool (s.markets mid))
    (hsum : (callers.map (TrialMarket.winnerPos s mid)).sum ≤
      TrialMarket.winnerPool (s.markets mid)) :
    (TrialMarket.runClaims s mid callers).2 =
        (callers.map (fun a => TrialMarket.winnerPos s mid a *
          ((s.markets mid).yesPool + (s.markets mid).noPool) /
          TrialMarket.winnerPool (s.markets mid))).sum ∧
      (TrialMarket.runClaims s mid callers).2 ≤
        (s.markets mid).yesPool + (s.markets mid).noPool ∧
      ((callers.map (TrialMarket.winnerPos s mid)).sum =
          TrialMarket.winnerPool (s.markets mid) →
        (s.markets mid).yesPool + (s.markets mid).noPool <
          (TrialMarket.runClaims s mid callers).2 + callers.length) ∧
      ((callers.map (TrialMarket.winnerPos s mid)).sum <
          TrialMarket.winnerPool (s.markets mid) →
        (TrialMarket.runClaims s mid callers).2 <
          (s.markets mid).yesPool + (s.markets mid).noPool) := by
  set W := TrialMarket.winnerPool (s.markets mid) with hWdef
  set P := (s.markets mid).yesPool + (s.markets mid).noPool with hPdef
  set ps := callers.map (TrialMarket.winnerPos s mid) with hpsdef
  have hWP : W ≤ P := winnerPool_le_totalPool (s.markets mid)
  have hpaid : (TrialMarket.runClaims s mid callers).2 =
      (ps.map (fun p => p * P / W)).sum := by
    rw [runClaims_paid mid callers s hnd hst hW, hpsdef, List.map_map]
    rfl
  set paid := (TrialMarket.runClaims s mid callers).2 with hpaiddef
  have hlen : ps.length = callers.length := by
    rw [hpsdef, List.length_map]
  have hub : W * paid ≤ P * ps.sum := by
    rw [hpaid]
    exact sum_payout_mul_le P W ps
  have hle : paid ≤ P := by
    have h1 : W * paid ≤ W * P := by
      calc W * paid ≤ P * ps.sum := hub
        _ ≤ P * W := Nat.mul_le_mul_left P hsum
        _ = W * P := Nat.mul_comm P W
    exact Nat.le_of_mul_le_mul_left h1 hW
  refine ⟨hpaid.trans (by rw [hpsdef, List.map_map]; rfl), hle, ?_, ?_⟩
  · intro hexact
    have hbound : P * ps.sum ≤ W * paid + ps.length * (W - 1) := by
      rw [hpaid]
      exact sum_payout_mod_bound P W hW ps
    rw [hexact] at hbound
    rw [← hlen]
    by_contra hcon
    push_neg at hcon
    have hn1 : 1 ≤ ps.length := by
      rcases Nat.eq_zero_or_pos ps.length with h0 | h1
      · rw [List.length_eq_zero.mp h0] at hexact
        simp at hexact
        omega
      · exact h1
    have hw1 : W - 1 + 1 = W := Nat.succ_pred_eq_of_pos hW
    have hcalc : (paid + ps.length) * W =
        paid * W + ps.length * (W - 1) + ps.length := by
      calc (paid + ps.length) * W = paid * W + ps.length * W := by ring
        _ = paid * W + ps.length * ((W - 1) + 1) := by rw [hw1]
        _ = paid * W + ps.length * (W - 1) + ps.length := by ring
    have hmono : (paid + ps.length) * W ≤ P * W :=
      Nat.mul_le_mul_right W hcon
    have hPW : P * W = W * P := Nat.mul_comm P W
    have hWp : W * paid = paid * W := Nat.mul_comm W paid
    rw [hPW, hWp] at hbound
    -- hbound : W * P ≤ paid * W + len * (W-1), after commuting
    omega
  · intro hless
    have hP : 0 < P := lt_of_lt_of_le hW hWP
    have hsum1 : ps.sum ≤ W - 1 := by omega
    have h1 : W * paid ≤ P * (W - 1) :=
      le_trans hub (Nat.mul_le_mul_left P hsum1)
    by_contra hnp
    push_neg at hnp
    have h2 : W * P ≤ W * paid := Nat.mul_le_mul_left W hnp
    have hw1 : W - 1 + 1 = W := Nat.succ_pred_eq_of_pos hW
    have h3 : P * (W - 1) + P = P * W := by
      calc P * (W - 1) + P = P * ((W - 1) + 1) := by ring
        _ = P * W := by rw [hw1]
    have hPW : W * P = P * W := Nat.mul_comm W P
    rw [hPW] at h2
    omega

/-- Witness for C3, at the spec's worked example: winners 1 and 2 (stakes 2
and 4 of the 6-unit winning pool, total pool 9) both claim — 3 + 6 = 9 is
paid, exactly the pool. -/
theorem c3_payout_conservation_witness :
    (TrialMarket.runClaims Fixtures.sRes 0 [1, 2]).2 ≤ 9 ∧
      9 < (TrialMarket.runClaims Fixtures.sRes 0 [1, 2]).2 + 2 := by
  have h := c3_payout_conservation Fixtures.sRes 0 [1, 2]
    (by decide) rfl (by decide) (by decide)
  exact ⟨h.2.1, h.2.2.1 (by decide)⟩

end TrialByFire
